import Mathlib

/-!
Formal model of the caffix/service repository (the queue-based BaseService
implementation in src/base.go, together with the Service interface).

Two layers are embedded, both translated directly from the Go source:

Method-level semantics.  Each public method of the Go type BaseService is a
pure function on an explicit record state.  A method that returns an error
in Go returns an Option String here; a method additionally returns the list
of observable events the call performs, in the order the Go statements
perform them.  Channels are modelled by identifiers: the field done holds
none when the Go field holds a nil channel, and some g when it holds the
channel allocated by the g-th make call; closedChans records the
identifiers of the channels that have been closed.  The embedded concrete
service is represented by the results its OnStart and OnStop hooks return
(fields onStartErr and onStopErr), since the base code only propagates
those results.

Dispatch semantics.  The goroutine spawned by Start (processRequests) is
modelled as a labelled transition system over TState covering one service
lifecycle (the single Start..Stop window the specification reasons about;
restartability itself is settled against the method-level semantics).  Each
label is one atomic step: a whole Request call, a whole Stop call, a
cancellation of a context, the dispatcher dequeuing one element and running
its select (dropping the element or beginning the handler call), the
handler call returning, or the dispatcher observing the closed done channel
at its outer select and exiting.  Handler executions span two steps (take
and ret), so overlapping handler calls would be representable; the proofs
show the dispatcher structure never produces an overlap.
-/

namespace Service

/-- A pending request as stored on the queue by queueRequest: a context
identifier and an opaque argument payload.  The Go element also stores the
bound handler (always the OnRequest method of the embedded service), which
is therefore left implicit. -/
structure Req where
  ctx : Nat
  args : Nat
deriving DecidableEq

/-- Configuration of the rate limiter installed by SetRateLimit: the Go
call ratelimit.New(persec, ratelimit.WithoutSlack).  The withSlack field
records whether burst slack is enabled; the WithoutSlack option sets it to
false. -/
structure RateLimiterCfg where
  persec : Int
  withSlack : Bool
deriving DecidableEq

/-- Observable events performed by the method bodies, in Go statement
order. -/
inductive Ev where
  | allocDone (chanId : Nat)
  | spawnDispatcher
  | setRunning (b : Bool)
  | closeDone (chanId : Nat)
  | callOnStart
  | callOnStop
  | appendQueue (r : Req)
  | takePermit (persec : Int)
deriving DecidableEq

/-- The BaseService struct of src/base.go (queue-based version).  The Go
mutexes only serialize field access and are invisible in this sequential
method semantics.  nextChan is the supply of fresh channel identifiers for
the make calls performed by Start; dispatchers counts the goroutines
spawned by go bas.processRequests(). -/
structure BaseService where
  name : String
  runs : Bool
  done : Option Nat
  nextChan : Nat
  closedChans : List Nat
  dispatchers : Nat
  queue : List Req
  rlimit : Option RateLimiterCfg
  onStartErr : Option String
  onStopErr : Option String
deriving DecidableEq

/-- NewBaseService: the constructor initializes the name, the queue and the
embedded service and leaves every other field at its Go zero value; in
particular the done field stays nil (none). -/
def NewBaseService (onStartErr onStopErr : Option String) (name : String) : BaseService :=
  { name := name
    runs := false
    done := none
    nextChan := 0
    closedChans := []
    dispatchers := 0
    queue := []
    rlimit := none
    onStartErr := onStartErr
    onStopErr := onStopErr }

/-- The running accessor (reads the runs flag under the lock). -/
def BaseService.running (bas : BaseService) : Bool :=
  bas.runs

/-- Start: if running() the call returns the already-started error and does
nothing else; otherwise it allocates the done channel, spawns the
dispatcher goroutine, sets the runs flag, and finally calls the OnStart
hook of the embedded service, returning that hook result.  The event list
records this statement order. -/
def BaseService.Start (bas : BaseService) : BaseService × Option String × List Ev :=
  if bas.running then
    (bas, some (bas.name ++ " has already been started"), [])
  else
    ({ bas with
        done := some bas.nextChan
        nextChan := bas.nextChan + 1
        dispatchers := bas.dispatchers + 1
        runs := true },
      bas.onStartErr,
      [Ev.allocDone bas.nextChan, Ev.spawnDispatcher, Ev.setRunning true, Ev.callOnStart])

/-- Stop: if not running() the call returns the already-stopped error and
does nothing else; otherwise it clears the runs flag, closes the done
channel, and calls the OnStop hook, returning that hook result. -/
def BaseService.Stop (bas : BaseService) : BaseService × Option String × List Ev :=
  if !bas.running then
    (bas, some (bas.name ++ " is already stopped"), [])
  else
    ({ bas with
        runs := false
        closedChans :=
          match bas.done with
          | some g => g :: bas.closedChans
          | none => bas.closedChans },
      bas.onStopErr,
      [Ev.setRunning false,
        Ev.closeDone (match bas.done with | some g => g | none => 0),
        Ev.callOnStop])

/-- Request: when running(), queueRequest appends the bound handler call to
the queue; otherwise the call does nothing.  The Go method returns no value
at all, so no error can be surfaced in either case. -/
def BaseService.Request (bas : BaseService) (c a : Nat) : BaseService × List Ev :=
  if bas.running then
    ({ bas with queue := bas.queue ++ [{ ctx := c, args := a }] },
      [Ev.appendQueue { ctx := c, args := a }])
  else
    (bas, [])

/-- Len returns the current queue length. -/
def BaseService.Len (bas : BaseService) : Nat :=
  bas.queue.length

/-- Done returns the done channel field as it stands (nil before the first
Start). -/
def BaseService.Done (bas : BaseService) : Option Nat :=
  bas.done

/-- Readiness of a receive on a channel value previously obtained from
Done: a receive completes once the channel has been closed; a receive on a
nil channel never completes. -/
def recvDoneReady (bas : BaseService) (c : Option Nat) : Bool :=
  match c with
  | none => false
  | some g => bas.closedChans.contains g

/-- SetRateLimit: zero clears the limiter; any other value installs
ratelimit.New(persec, ratelimit.WithoutSlack). -/
def BaseService.SetRateLimit (bas : BaseService) (persec : Int) : BaseService :=
  if persec = 0 then
    { bas with rlimit := none }
  else
    { bas with rlimit := some { persec := persec, withSlack := false } }

/-- CheckRateLimit: snapshots the configured limiter under the rate lock
and, when one is configured, blocks in Take on it; with no limiter the call
performs nothing and returns immediately.  The returned event list records
the blocking acquisition, naming the limiter it blocks on. -/
def BaseService.CheckRateLimit (bas : BaseService) : List Ev :=
  match bas.rlimit with
  | none => []
  | some cfg => [Ev.takePermit cfg.persec]

/-- Public operations a caller can issue on a service, for reasoning about
arbitrary call sequences. -/
inductive Op where
  | start
  | stop
  | request (c a : Nat)
  | setRateLimit (n : Int)
  | checkRateLimit
deriving DecidableEq

/-- State effect of one public call. -/
def callOp (bas : BaseService) (op : Op) : BaseService :=
  match op with
  | Op.start => bas.Start.1
  | Op.stop => bas.Stop.1
  | Op.request c a => (bas.Request c a).1
  | Op.setRateLimit n => bas.SetRateLimit n
  | Op.checkRateLimit => bas

/-- State reached by a sequence of public calls. -/
def runScript (bas : BaseService) (ops : List Op) : BaseService :=
  ops.foldl callOp bas

/-- Control state of the processRequests goroutine: not yet spawned,
blocked at the outer select of its for loop, inside the synchronous
e.Func.Call of the each closure, or returned after observing the closed
done channel. -/
inductive DispState where
  | notSpawned
  | looping
  | calling (r : Req)
  | exited
deriving DecidableEq

/-- Global state of one service lifecycle for the dispatch semantics.
enqueued and handled are history variables: enqueued logs every request
successfully appended by queueRequest, in append order; handled logs every
request whose handler call the dispatcher begins, in call order.
cancelledCtxs holds the identifiers of the contexts whose Done channel has
fired (cancellation or deadline expiry).  inFlight counts the handler
invocations currently executing. -/
structure TState where
  runs : Bool
  startedEver : Bool
  doneAlloc : Bool
  doneClosed : Bool
  pending : List Req
  enqueued : List Req
  handled : List Req
  cancelledCtxs : List Nat
  disp : DispState
  inFlight : Nat
deriving DecidableEq

/-- Initial state: a freshly constructed service, before any call. -/
def initState : TState :=
  { runs := false
    startedEver := false
    doneAlloc := false
    doneClosed := false
    pending := []
    enqueued := []
    handled := []
    cancelledCtxs := []
    disp := DispState.notSpawned
    inFlight := 0 }

/-- Atomic steps of the dispatch semantics.  start and stop are whole calls
of the lifecycle methods; request is a whole Request call; cancel fires the
Done channel of a context; take is one iteration of the dispatcher over the
head of the queue (dequeue followed by the select of the each closure); ret
is the return of the handler call begun by the matching take; exitLoop is
the outer select observing the closed done channel. -/
inductive Label where
  | start
  | stop
  | request (r : Req)
  | cancel (c : Nat)
  | take
  | ret
  | exitLoop
deriving DecidableEq

/-- One atomic step.  Guards mirror the Go code: Start is guarded by the
runs flag (within the single lifecycle modelled here the first Start finds
it false, so the guard is expressed by the startedEver latch); Stop clears
the flag and closes the done channel; Request appends only while running;
the dispatcher select dispatches the head request unless its context has
fired or the done channel is closed, in which case the element is dropped
with no handler call.  A label whose guard does not hold leaves the state
unchanged. -/
def applyStep (l : Label) (s : TState) : TState :=
  match l with
  | Label.start =>
      if s.startedEver then s
      else
        { s with
            doneAlloc := true
            doneClosed := false
            disp := DispState.looping
            runs := true
            startedEver := true }
  | Label.stop =>
      if s.runs then { s with runs := false, doneClosed := true } else s
  | Label.request r =>
      if s.runs then
        { s with pending := s.pending ++ [r], enqueued := s.enqueued ++ [r] }
      else s
  | Label.cancel c => { s with cancelledCtxs := c :: s.cancelledCtxs }
  | Label.take =>
      match s.disp, s.pending with
      | DispState.looping, r :: rest =>
          if s.cancelledCtxs.contains r.ctx || s.doneClosed then
            { s with pending := rest }
          else
            { s with
                pending := rest
                disp := DispState.calling r
                handled := s.handled ++ [r]
                inFlight := s.inFlight + 1 }
      | _, _ => s
  | Label.ret =>
      match s.disp with
      | DispState.calling _ => { s with disp := DispState.looping, inFlight := s.inFlight - 1 }
      | _ => s
  | Label.exitLoop =>
      match s.disp with
      | DispState.looping =>
          if s.doneClosed then { s with disp := DispState.exited } else s
      | _ => s

/-- State reached from the initial state by a trace of steps. -/
def run (tr : List Label) : TState :=
  tr.foldl (fun s l => applyStep l s) initState

/-- Load the dispatcher control state puts on the handler: one call is
executing exactly while the dispatcher sits inside e.Func.Call. -/
def dispLoad : DispState → Nat
  | DispState.calling _ => 1
  | _ => 0

/-- Inductive invariant of the dispatch semantics: the handler log followed
by the still-pending queue is an order-preserving subsequence of the
enqueue log; a spawned dispatcher implies a completed Start; and the number
of executing handler calls is determined by the dispatcher control
state. -/
def Inv (s : TState) : Prop :=
  (s.handled ++ s.pending).Sublist s.enqueued ∧
    (s.disp ≠ DispState.notSpawned → s.startedEver = true) ∧
    s.inFlight = dispLoad s.disp

/-- Inductive invariant of the method-level semantics used for the
close-at-most-once guarantee: every channel identifier appears at most once
among the closed channels, identifiers at or above the fresh supply are
unclosed, a running service holds an allocated and still-open done channel,
and the held channel identifier is below the fresh supply. -/
def GoodClose (bas : BaseService) : Prop :=
  (∀ g, bas.closedChans.count g ≤ 1) ∧
    (∀ g, bas.nextChan ≤ g → bas.closedChans.count g = 0) ∧
    (bas.runs = true → ∃ g, bas.done = some g ∧ bas.closedChans.count g = 0) ∧
    (∀ g, bas.done = some g → g < bas.nextChan)

theorem inv_initState : Inv initState := by
  refine ⟨List.Sublist.refl _, ?_, rfl⟩
  intro h
  simp [initState] at h

theorem inv_applyStep (l : Label) (s : TState) (h : Inv s) : Inv (applyStep l s) := by
  obtain ⟨h1, h2, h3⟩ := h
  cases l with
  | start =>
      by_cases hs : s.startedEver
      · simp only [applyStep, hs, ite_true]
        exact ⟨h1, h2, h3⟩
      · have hdisp : s.disp = DispState.notSpawned := by
          by_contra hne
          exact hs (h2 hne)
        have hred : applyStep Label.start s =
            { s with
                doneAlloc := true
                doneClosed := false
                disp := DispState.looping
                runs := true
                startedEver := true } := by
          simp [applyStep, hs]
        rw [hred]
        refine ⟨h1, fun _ => rfl, ?_⟩
        show s.inFlight = 0
        rw [h3, hdisp]
        rfl
  | stop =>
      by_cases hr : s.runs <;> simp only [applyStep, hr, ite_true, Bool.false_eq_true,
        ite_false] <;> exact ⟨h1, h2, h3⟩
  | request r =>
      by_cases hr : s.runs
      · simp only [applyStep, hr, ite_true]
        refine ⟨?_, h2, h3⟩
        have hstep : ((s.handled ++ s.pending) ++ [r]).Sublist (s.enqueued ++ [r]) :=
          h1.append (List.Sublist.refl [r])
        simpa using hstep
      · simp only [applyStep, hr, Bool.false_eq_true, ite_false]
        exact ⟨h1, h2, h3⟩
  | cancel c => exact ⟨h1, h2, h3⟩
  | take =>
      rcases hdisp : s.disp with _ | _ | r0 | _ <;>
        rcases hpend : s.pending with _ | ⟨r, rest⟩ <;>
          simp only [applyStep, hdisp, hpend] <;>
          try exact ⟨h1, h2, h3⟩
      rw [hpend] at h1
      by_cases hc : s.cancelledCtxs.contains r.ctx || s.doneClosed
      · simp only [hc, ite_true]
        refine ⟨?_, ?_, ?_⟩
        · exact List.Sublist.trans
            (List.Sublist.append_left (List.sublist_cons_self r rest) s.handled) h1
        · intro _
          exact h2 (by rw [hdisp]; simp)
        · show s.inFlight = dispLoad DispState.looping
          rw [h3, hdisp]
      · simp only [hc, Bool.false_eq_true, ite_false]
        refine ⟨?_, ?_, ?_⟩
        · simpa using h1
        · intro _
          exact h2 (by rw [hdisp]; simp)
        · show s.inFlight + 1 = 1
          rw [h3, hdisp]
          rfl
  | ret =>
      rcases hdisp : s.disp with _ | _ | r0 | _ <;>
        simp only [applyStep, hdisp] <;>
        try exact ⟨h1, h2, h3⟩
      refine ⟨h1, ?_, ?_⟩
      · intro _
        exact h2 (by rw [hdisp]; simp)
      · show s.inFlight - 1 = 0
        rw [h3, hdisp]
        rfl
  | exitLoop =>
      rcases hdisp : s.disp with _ | _ | r0 | _ <;>
        simp only [applyStep, hdisp] <;>
        try exact ⟨h1, h2, h3⟩
      by_cases hd : s.doneClosed
      · simp only [hd, ite_true]
        refine ⟨h1, ?_, ?_⟩
        · intro _
          exact h2 (by rw [hdisp]; simp)
        · show s.inFlight = 0
          rw [h3, hdisp]
          rfl
      · simp only [hd, Bool.false_eq_true, ite_false]
        exact ⟨h1, h2, h3⟩

theorem inv_foldl (tr : List Label) :
    ∀ s : TState, Inv s → Inv (tr.foldl (fun s l => applyStep l s) s) := by
  induction tr with
  | nil => intro s hs; simpa using hs
  | cons l tr ih =>
      intro s hs
      simpa using ih (applyStep l s) (inv_applyStep l s hs)

theorem inv_run (tr : List Label) : Inv (run tr) :=
  inv_foldl tr initState inv_initState

theorem run_append (tr : List Label) (l : Label) :
    run (tr ++ [l]) = applyStep l (run tr) := by
  simp [run, List.foldl_append]

theorem goodClose_new (se so : Option String) (nm : String) :
    GoodClose (NewBaseService se so nm) := by
  refine ⟨?_, ?_, ?_, ?_⟩ <;> simp [NewBaseService, GoodClose]

theorem goodClose_callOp (bas : BaseService) (op : Op) (h : GoodClose bas) :
    GoodClose (callOp bas op) := by
  obtain ⟨h1, h2, h3, h4⟩ := h
  cases op with
  | start =>
      by_cases hr : bas.runs
      · simp only [callOp, BaseService.Start, BaseService.running, hr, ite_true]
        exact ⟨h1, h2, h3, h4⟩
      · simp only [callOp, BaseService.Start, BaseService.running, hr, Bool.false_eq_true,
          ite_false, GoodClose]
        refine ⟨h1, ?_, ?_, ?_⟩
        · intro g hg
          exact h2 g (by omega)
        · intro _
          exact ⟨bas.nextChan, rfl, h2 bas.nextChan le_rfl⟩
        · intro g hg
          have : bas.nextChan = g := Option.some.inj hg
          omega
  | stop =>
      by_cases hr : bas.runs
      · obtain ⟨g0, hg0, hcnt⟩ := h3 hr
        have hlt : g0 < bas.nextChan := h4 g0 hg0
        simp only [callOp, BaseService.Stop, BaseService.running, hr, Bool.not_true,
          Bool.false_eq_true, ite_false, hg0, GoodClose]
        refine ⟨?_, ?_, ?_, ?_⟩
        · intro g
          rw [List.count_cons]
          by_cases hgg : g0 = g
          · subst hgg
            simp [hcnt]
          · simp [hgg, h1 g]
        · intro g hg
          rw [List.count_cons]
          have hne : ¬g0 = g := by omega
          simp [hne, h2 g hg]
        · intro hfalse
          simp at hfalse
        · intro g hg
          have : g0 = g := Option.some.inj hg
          omega
      · simp only [callOp, BaseService.Stop, BaseService.running, hr]
        have hr2 : bas.runs = false := by simpa using hr
        simp only [hr2, Bool.not_false, ite_true]
        exact ⟨h1, h2, h3, h4⟩
  | request c a =>
      by_cases hr : bas.runs
      · simp only [callOp, BaseService.Request, BaseService.running, hr, ite_true, GoodClose]
        exact ⟨h1, h2, fun _ => h3 hr, h4⟩
      · simp only [callOp, BaseService.Request, BaseService.running, hr, Bool.false_eq_true,
          ite_false]
        exact ⟨h1, h2, h3, h4⟩
  | setRateLimit n =>
      by_cases hn : n = 0
      · simp only [callOp, BaseService.SetRateLimit, hn, ite_true, GoodClose]
        exact ⟨h1, h2, h3, h4⟩
      · simp only [callOp, BaseService.SetRateLimit, hn, ite_false, GoodClose]
        exact ⟨h1, h2, h3, h4⟩
  | checkRateLimit => exact ⟨h1, h2, h3, h4⟩

theorem goodClose_foldl (ops : List Op) :
    ∀ bas : BaseService, GoodClose bas → GoodClose (ops.foldl callOp bas) := by
  induction ops with
  | nil => intro bas h; simpa using h
  | cons op ops ih =>
      intro bas h
      simpa using ih (callOp bas op) (goodClose_callOp bas op h)

/-- C1: for every execution, the sequence of handler invocations, followed
by the requests still queued, is an order-preserving subsequence of the
sequence of successfully enqueued requests: handling happens in exactly the
append order (FIFO), with no reordering and no priority; requests are only
ever skipped by dropping, never handled out of order. -/
theorem c1_fifo_order (tr : List Label) :
    ((run tr).handled ++ (run tr).pending).Sublist (run tr).enqueued :=
  (inv_run tr).1

/-- C2: for every execution, at most one handler invocation of the service
is in flight at any instant: the single dispatcher task begins a handler
call only from its loop state and does not reach the next queued element
until the call returns. -/
theorem c2_sequential_dispatch (tr : List Label) : (run tr).inFlight ≤ 1 := by
  rw [(inv_run tr).2.2]
  cases (run tr).disp <;> simp [dispLoad]

/-- C3 counterexample: the one-shot lifecycle claim fails on the code.  At
the concrete service built by NewBaseService, after a successful Start and
a successful Stop, the next Start is not rejected: it returns no error and
sets the service Running again, because Start only checks the runs flag,
which Stop has reset. -/
theorem c3_counterexample :
    (((NewBaseService none none "svc").Start.1).Stop.1).Start.2.1 = none ∧
      (((NewBaseService none none "svc").Start.1).Stop.1).Start.1.runs = true :=
  ⟨rfl, rfl⟩

/-- C3 (amended): Start is rejected with an error exactly while the service
is Running at the time of the call; when the service is not Running —
whether never started or successfully stopped — Start succeeds again,
returning the OnStart hook result, setting the service Running and
allocating a fresh done channel.  The lifecycle is a boolean running flag,
not a one-shot Created-Running-Stopped machine. -/
theorem c3_start_guard (bas : BaseService) :
    (bas.runs = true →
      bas.Start = (bas, some (bas.name ++ " has already been started"), [])) ∧
    (bas.runs = false →
      bas.Start.2.1 = bas.onStartErr ∧ bas.Start.1.runs = true ∧
        bas.Start.1.done = some bas.nextChan) := by
  constructor
  · intro h
    simp [BaseService.Start, BaseService.running, h]
  · intro h
    simp [BaseService.Start, BaseService.running, h]

/-- Witness for C3: the amended guard applied to the concrete stopped
service of the counterexample. -/
theorem c3_start_guard_witness :
    (((NewBaseService none none "svc").Start.1).Stop.1).Start.2.1 =
        (((NewBaseService none none "svc").Start.1).Stop.1).onStartErr ∧
      (((NewBaseService none none "svc").Start.1).Stop.1).Start.1.runs = true ∧
      (((NewBaseService none none "svc").Start.1).Stop.1).Start.1.done =
        some (((NewBaseService none none "svc").Start.1).Stop.1).nextChan :=
  (c3_start_guard (((NewBaseService none none "svc").Start.1).Stop.1)).2 rfl

/-- C4: calling Request while the service is not Running is a silent no-op
in both semantic layers: the method returns no error (its Go signature has
no error result), appends nothing to the queue and leaves the service
unchanged, and the corresponding step of the dispatch semantics leaves the
whole state unchanged, so no handler invocation can ever trace back to the
call. -/
theorem c4_request_not_running_noop (bas : BaseService) (c a : Nat) (s : TState) (r : Req)
    (hb : bas.runs = false) (hs : s.runs = false) :
    bas.Request c a = (bas, []) ∧ applyStep (Label.request r) s = s := by
  constructor
  · simp [BaseService.Request, BaseService.running, hb]
  · simp [applyStep, hs]

/-- Witness for C4 at a freshly constructed, never-started service and the
initial dispatch state. -/
theorem c4_witness :
    (NewBaseService none none "svc").Request 0 1 = (NewBaseService none none "svc", []) ∧
      applyStep (Label.request { ctx := 0, args := 1 }) initState = initState :=
  c4_request_not_running_noop (NewBaseService none none "svc") 0 1 initState
    { ctx := 0, args := 1 } rfl rfl

/-- C5: when the dispatcher dequeues the head request, if the request
context has been cancelled or the done channel has been closed the request
is dropped — the handler is not invoked, no error is surfaced, and the
remaining queue is left intact in order, so later requests with live
contexts are still handled in FIFO order (with c1_fifo_order); otherwise
the handler call begins with exactly that request. -/
theorem c5_drop_or_invoke (tr : List Label) (r : Req) (rest : List Req)
    (hdisp : (run tr).disp = DispState.looping)
    (hpend : (run tr).pending = r :: rest) :
    (((run tr).cancelledCtxs.contains r.ctx || (run tr).doneClosed) = true →
      applyStep Label.take (run tr) = { run tr with pending := rest }) ∧
    (((run tr).cancelledCtxs.contains r.ctx || (run tr).doneClosed) = false →
      applyStep Label.take (run tr) =
        { run tr with
            pending := rest
            disp := DispState.calling r
            handled := (run tr).handled ++ [r]
            inFlight := (run tr).inFlight + 1 }) := by
  constructor <;> intro hc <;>
    simp only [applyStep, hdisp, hpend, hc, ite_true, Bool.false_eq_true, ite_false]

/-- Witness for C5: in a concrete execution that enqueued one request with
a context cancelled before dispatch and one live request, the take step
drops the cancelled head and leaves the live request queued. -/
theorem c5_witness :
    applyStep Label.take
        (run [Label.start, Label.request { ctx := 0, args := 5 },
          Label.request { ctx := 1, args := 7 }, Label.cancel 0]) =
      { run [Label.start, Label.request { ctx := 0, args := 5 },
          Label.request { ctx := 1, args := 7 }, Label.cancel 0] with
          pending := [{ ctx := 1, args := 7 }] } :=
  (c5_drop_or_invoke
      [Label.start, Label.request { ctx := 0, args := 5 },
        Label.request { ctx := 1, args := 7 }, Label.cancel 0]
      { ctx := 0, args := 5 } [{ ctx := 1, args := 7 }] (by decide) (by decide)).1 (by decide)

/-- C6: Start called while Running returns the already-started error and
leaves everything unchanged (no mutation, no new dispatcher goroutine, the
done channel untouched); Stop called while not Running returns the
already-stopped error and leaves everything unchanged; and across any
sequence of public calls on a fresh service, every done channel is closed
at most once. -/
theorem c6_lifecycle_guards (bas : BaseService) :
    (bas.runs = true →
      bas.Start = (bas, some (bas.name ++ " has already been started"), [])) ∧
    (bas.runs = false →
      bas.Stop = (bas, some (bas.name ++ " is already stopped"), [])) ∧
    (∀ (se so : Option String) (nm : String) (ops : List Op) (g : Nat),
      (runScript (NewBaseService se so nm) ops).closedChans.count g ≤ 1) := by
  refine ⟨?_, ?_, ?_⟩
  · intro h
    simp [BaseService.Start, BaseService.running, h]
  · intro h
    simp [BaseService.Stop, BaseService.running, h]
  · intro se so nm ops g
    exact (goodClose_foldl ops (NewBaseService se so nm) (goodClose_new se so nm)).1 g

/-- Witness for C6: the guards applied at a running service and at a fresh
service, and the close-once bound on a concrete call script with a
restart. -/
theorem c6_witness :
    ((NewBaseService none none "svc").Start.1.Start =
      ((NewBaseService none none "svc").Start.1,
        some ((NewBaseService none none "svc").Start.1.name ++ " has already been started"),
        [])) ∧
      ((NewBaseService none none "svc").Stop =
        (NewBaseService none none "svc",
          some ((NewBaseService none none "svc").name ++ " is already stopped"), [])) ∧
      (runScript (NewBaseService none none "svc")
          [Op.start, Op.stop, Op.start, Op.stop]).closedChans.count 0 ≤ 1 :=
  ⟨(c6_lifecycle_guards (NewBaseService none none "svc").Start.1).1 rfl,
    (c6_lifecycle_guards (NewBaseService none none "svc")).2.1 rfl,
    (c6_lifecycle_guards (NewBaseService none none "svc")).2.2 none none "svc"
      [Op.start, Op.stop, Op.start, Op.stop] 0⟩

/-- C7: a successful Start performs, in this order, the allocation of the
done channel, the spawn of the dispatcher goroutine, the transition of the
runs flag to true, and the call of the OnStart hook; it returns whatever
the hook returns, so even when the hook returns an error the service is
left Running with the dispatcher spawned and the done channel allocated
(the transition is not rolled back). -/
theorem c7_start_order (bas : BaseService) (h : bas.runs = false) :
    bas.Start.2.2 =
      [Ev.allocDone bas.nextChan, Ev.spawnDispatcher, Ev.setRunning true, Ev.callOnStart] ∧
    bas.Start.2.1 = bas.onStartErr ∧
    bas.Start.1.runs = true ∧
    bas.Start.1.dispatchers = bas.dispatchers + 1 ∧
    bas.Start.1.done = some bas.nextChan := by
  simp [BaseService.Start, BaseService.running, h]

/-- Witness for C7 at a service whose OnStart hook fails with the error
boom: Start returns that error yet the state is Running. -/
theorem c7_witness :
    (NewBaseService (some "boom") none "svc").Start.2.2 =
      [Ev.allocDone 0, Ev.spawnDispatcher, Ev.setRunning true, Ev.callOnStart] ∧
    (NewBaseService (some "boom") none "svc").Start.2.1 = some "boom" ∧
    (NewBaseService (some "boom") none "svc").Start.1.runs = true ∧
    (NewBaseService (some "boom") none "svc").Start.1.dispatchers = 1 ∧
    (NewBaseService (some "boom") none "svc").Start.1.done = some 0 :=
  c7_start_order (NewBaseService (some "boom") none "svc") rfl

/-- C8: SetRateLimit 0 clears any configured limiter and every subsequent
CheckRateLimit returns immediately with no blocking acquisition;
SetRateLimit n for positive n installs a limiter allowing n acquisitions
per second with no burst slack, and CheckRateLimit then blocks on exactly
the limiter configured at the time of the call; CheckRateLimit performs no
acquisition exactly when no limiter is configured. -/
theorem c8_rate_limit (bas : BaseService) (n : Int) (h : 0 < n) :
    (bas.SetRateLimit 0).rlimit = none ∧
    (bas.SetRateLimit 0).CheckRateLimit = [] ∧
    (bas.SetRateLimit n).rlimit = some { persec := n, withSlack := false } ∧
    (bas.SetRateLimit n).CheckRateLimit = [Ev.takePermit n] ∧
    (bas.CheckRateLimit = [] ↔ bas.rlimit = none) := by
  have hn : n ≠ 0 := by omega
  refine ⟨?_, ?_, ?_, ?_, ?_⟩
  · simp [BaseService.SetRateLimit]
  · simp [BaseService.SetRateLimit, BaseService.CheckRateLimit]
  · simp [BaseService.SetRateLimit, hn]
  · simp [BaseService.SetRateLimit, BaseService.CheckRateLimit, hn]
  · cases hr : bas.rlimit with
    | none => simp [BaseService.CheckRateLimit, hr]
    | some cfg => simp [BaseService.CheckRateLimit, hr]

/-- Witness for C8 at a fresh service and rate 5. -/
theorem c8_witness :
    ((NewBaseService none none "svc").SetRateLimit 0).rlimit = none ∧
    ((NewBaseService none none "svc").SetRateLimit 0).CheckRateLimit = [] ∧
    ((NewBaseService none none "svc").SetRateLimit 5).rlimit =
      some { persec := 5, withSlack := false } ∧
    ((NewBaseService none none "svc").SetRateLimit 5).CheckRateLimit = [Ev.takePermit 5] ∧
    ((NewBaseService none none "svc").CheckRateLimit = [] ↔
      (NewBaseService none none "svc").rlimit = none) :=
  c8_rate_limit (NewBaseService none none "svc") 5 (by decide)

/-- C9: a handler invocation can only begin in a state where Start has
completed and the done channel of the current lifecycle has not been
closed: no execution begins a handler call before Start completes or after
Stop completes. -/
theorem c9_handler_window (tr : List Label) (l : Label)
    (h : (run tr).handled.length < (run (tr ++ [l])).handled.length) :
    (run tr).startedEver = true ∧ (run tr).doneClosed = false := by
  have hInv := inv_run tr
  obtain ⟨h1, h2, h3⟩ := hInv
  rw [run_append] at h
  cases l with
  | start =>
      by_cases hs : (run tr).startedEver <;> simp [applyStep, hs, lt_self_iff_false] at h
  | stop =>
      by_cases hr : (run tr).runs <;> simp [applyStep, hr, lt_self_iff_false] at h
  | request r =>
      by_cases hr : (run tr).runs <;> simp [applyStep, hr, lt_self_iff_false] at h
  | cancel c => simp [applyStep, lt_self_iff_false] at h
  | take =>
      rcases hdisp : (run tr).disp with _ | _ | r0 | _ <;>
        rcases hpend : (run tr).pending with _ | ⟨r, rest⟩ <;>
          simp only [applyStep, hdisp, hpend] at h <;>
          try exact absurd h (lt_irrefl _)
      split at h
      · exact absurd h (lt_irrefl _)
      · next hcond =>
          refine ⟨h2 (by rw [hdisp]; simp), ?_⟩
          have hf : ((run tr).cancelledCtxs.contains r.ctx || (run tr).doneClosed) = false := by
            simpa using hcond
          exact (Bool.or_eq_false_iff.mp hf).2
  | ret =>
      rcases hdisp : (run tr).disp with _ | _ | r0 | _ <;>
        simp only [applyStep, hdisp] at h <;>
        exact absurd h (lt_irrefl _)
  | exitLoop =>
      rcases hdisp : (run tr).disp with _ | _ | r0 | _ <;>
        simp only [applyStep, hdisp] at h <;>
        try exact absurd h (lt_irrefl _)
      split at h <;> exact absurd h (lt_irrefl _)

/-- Witness for C9: in the concrete execution that starts the service and
enqueues one live request, the take step begins a handler call, and the
pre-state indeed has Start completed and the done channel open. -/
theorem c9_witness :
    (run [Label.start, Label.request { ctx := 0, args := 0 }]).startedEver = true ∧
      (run [Label.start, Label.request { ctx := 0, args := 0 }]).doneClosed = false :=
  c9_handler_window [Label.start, Label.request { ctx := 0, args := 0 }] Label.take
    (by decide)

/-- C10: the queue-based constructor does not allocate the done channel, so
Done() on a never-started service returns the nil channel and a receive on
that captured nil channel can never complete (the caller blocks forever);
the channel is first allocated inside Start, and each successful Start
installs a freshly allocated channel, bumping the allocation counter. -/
theorem c10_done_nil_before_start (se so : Option String) (nm : String) (bas : BaseService)
    (h : bas.runs = false) :
    (NewBaseService se so nm).Done = none ∧
    recvDoneReady bas none = false ∧
    bas.Start.1.done = some bas.nextChan ∧
    bas.Start.1.nextChan = bas.nextChan + 1 := by
  refine ⟨rfl, rfl, ?_, ?_⟩ <;> simp [BaseService.Start, BaseService.running, h]

/-- Witness for C10 at a fresh service. -/
theorem c10_witness :
    (NewBaseService none none "svc").Done = none ∧
    recvDoneReady (NewBaseService none none "svc") none = false ∧
    (NewBaseService none none "svc").Start.1.done = some 0 ∧
    (NewBaseService none none "svc").Start.1.nextChan = 0 + 1 :=
  c10_done_nil_before_start none none "svc" (NewBaseService none none "svc") rfl

end Service
